import Mathlib

/-!
Verification of the `fil_backend` example material: the
`Fraud_Detection_Example.ipynb` notebook (data preparation, model training,
serialization, Triton configuration generation, readiness polling, client-side
batching) and the multi-stage Dockerfile packaging the FIL backend.

Each Python cell or Dockerfile stage relevant to the claims is shallowly
embedded as an executable Lean definition; theorems about those definitions
settle the claims.
-/

/- ############################################################
   C1.  Server-readiness retry loop (cell 66742762)

   ```python
   server_start = time.time()
   while True:
       try:
           if client.is_server_ready() or time.time() - server_start > TIMEOUT:
               break
       except triton_utils.InferenceServerException:
           pass
       time.sleep(1)
   ```

   One loop iteration is modelled by the outcome of the probe call
   `client.is_server_ready()` (returns true, returns false, or raises
   `InferenceServerException`) together with the value of
   `time.time() - server_start` observed at that iteration.  Because Python
   evaluates `or` left to right, an iteration in which the probe raises never
   evaluates the timeout comparison: the exception is caught and the loop
   continues.
   ############################################################ -/

inductive ProbeOutcome where
  | ready
  | notReady
  | raises
deriving DecidableEq

def TIMEOUT : Nat := 60

/-- Whether the `while True` loop breaks at iteration `i`, given the probe
outcome at each iteration and the elapsed seconds `time.time() - server_start`
observed at each iteration.  Mirrors the `try`/`except` and the
short-circuiting `or` of the source. -/
def loopExits (probe : Nat → ProbeOutcome) (elapsed : Nat → Nat) (i : Nat) : Bool :=
  match probe i with
  | ProbeOutcome.ready => true
  | ProbeOutcome.notReady => decide (elapsed i > TIMEOUT)
  | ProbeOutcome.raises => false

/-- The loop terminates on an execution described by `probe`/`elapsed`. -/
def loopTerminates (probe : Nat → ProbeOutcome) (elapsed : Nat → Nat) : Prop :=
  ∃ i, loopExits probe elapsed i = true

/- ############################################################
   C5.  Model training (cells 9aec11f0, fcc239af, 8f57524f)

   `train_model` constructs an `xgb.XGBClassifier` with fixed keyword
   arguments except `max_depth` and `n_estimators`, which come from its two
   parameters.  The notebook invokes it exactly twice:
   `small_model = train_model(500, 3)` and `large_model = train_model(5000, 12)`.
   ############################################################ -/

def USE_CATEGORICAL : Bool := false

structure XGBParams where
  tree_method : String
  enable_categorical : Bool
  use_label_encoder : Bool
  predictor : String
  eval_metric : String
  objective : String
  max_depth : Nat
  n_estimators : Nat
deriving DecidableEq

def train_model (num_trees max_depth : Nat) : XGBParams :=
  { tree_method := "gpu_hist"
    enable_categorical := USE_CATEGORICAL
    use_label_encoder := false
    predictor := "gpu_predictor"
    eval_metric := "aucpr"
    objective := "binary:logistic"
    max_depth := max_depth
    n_estimators := num_trees }

/-- The trainer invocations made by the notebook, in cell order. -/
def trainingInvocations : List XGBParams :=
  [train_model 500 3, train_model 5000 12]

/- ############################################################
   C2.  Model serialization and configuration paths
   (cells 2db311a7 and 0e794668)
   ############################################################ -/

/-- `os.path.join a b` for a relative second component. -/
def pathJoin (a b : String) : String := a ++ "/" ++ b

inductive FsOp where
  | makedirs (p : String)
  | write (p : String) (content : List Char)

/-- Embedding of `serialize_model`: the filesystem effects it performs
(`os.makedirs(version_dir, exist_ok=True)` and `model.save_model(model_file)`,
the serialized model bytes being `model`) and the value it returns
(`model_dir`). -/
def serialize_model (model : List Char) (repoPath modelName : String) :
    List FsOp × String :=
  let model_dir := pathJoin repoPath modelName
  let version_dir := pathJoin model_dir "1"
  let model_file := pathJoin version_dir "xgboost.json"
  ([FsOp.makedirs version_dir, FsOp.write model_file model], model_dir)

/- ############################################################
   C8/C9.  Client-side batching (cell 424da1e7)

   ```python
   GPU_COUNT = 8
   def create_batches(arr):
       chunks = (
           arr.shape[0] // max_batch_size +
           int(bool(arr.shape[0] % max_batch_size) or arr.shape[0] < max_batch_size)
       )
       return np.array_split(arr, max(GPU_COUNT, chunks))
   ```

   A 2-D array is modelled as a list of rows.  `np.array_split(l, k)` returns
   `l.length % k` parts of size `l.length / k + 1` followed by
   `k - l.length % k` parts of size `l.length / k`.
   ############################################################ -/

def GPU_COUNT : Nat := 8

/-- Part sizes produced by `np.array_split` on a length-`n` axis split into
`k` parts. -/
def splitSizes (n k : Nat) : List Nat :=
  List.replicate (n % k) (n / k + 1) ++ List.replicate (k - n % k) (n / k)

/-- Successively take prefixes of the given sizes. -/
def takeDrops : List Nat → List α → List (List α)
  | [], _ => []
  | s :: ss, l => l.take s :: takeDrops ss (l.drop s)

/-- Embedding of `np.array_split(l, k)` along axis 0. -/
def arraySplit (l : List α) (k : Nat) : List (List α) :=
  takeDrops (splitSizes l.length k) l

/-- The chunk count computed inside `create_batches`; `int(bool(n % m) or n < m)`
is 1 exactly when `n % m ≠ 0` or `n < m`. -/
def chunkCount (maxBatchSize n : Nat) : Nat :=
  n / maxBatchSize + (if n % maxBatchSize ≠ 0 ∨ n < maxBatchSize then 1 else 0)

/-- Embedding of `create_batches` (the global `max_batch_size` is passed
explicitly). -/
def createBatches (maxBatchSize : Nat) (l : List α) : List (List α) :=
  arraySplit l (max GPU_COUNT (chunkCount maxBatchSize l.length))

/- ############################################################
   C3.  Configuration file contents (cells 858fd518, 539ab7b9, 0e794668)

   ```python
   MAX_MEMORY_BYTES = 60_000_000
   features = X_test.shape[1]
   num_classes = cp.unique(y_test).size
   bytes_per_sample = (features + num_classes) * 4
   max_batch_size = MAX_MEMORY_BYTES // bytes_per_sample
   ```

   `generate_config` interpolates `max_batch_size`, `features`, `num_classes`,
   the chosen `instance_kind` and the `storage_type` argument into a fixed
   f-string template and writes the result to `<model_dir>/config.pbtxt`.
   The produced text is modelled as a `List Char`; the fixed template pieces
   `cfgT1` … `cfgT6` are transcribed verbatim from the source (`{{`/`}}` in the
   Python f-string render as single braces, written `\x7b`/`\x7d` here).
   ############################################################ -/

def MAX_MEMORY_BYTES : Nat := 60000000

def bytes_per_sample (features num_classes : Nat) : Nat :=
  (features + num_classes) * 4

def max_batch_size (features num_classes : Nat) : Nat :=
  MAX_MEMORY_BYTES / bytes_per_sample features num_classes

/-- Fuel-driven decimal rendering; `fuel ≥ n + 1` always suffices since the
recursion divides by ten. -/
def natStrGo : Nat → Nat → List Char
  | 0, _ => []
  | fuel + 1, n =>
    if n < 10 then [Char.ofNat (48 + n)]
    else natStrGo fuel (n / 10) ++ [Char.ofNat (48 + n % 10)]

/-- Decimal rendering of a natural number, as Python `str`/f-string
interpolation produces for a nonnegative `int`. -/
def natStr (n : Nat) : List Char := natStrGo (n + 1) n

/-- ASCII lowercasing of one character. -/
def charLower (c : Char) : Char :=
  if 'A' ≤ c ∧ c ≤ 'Z' then Char.ofNat (c.toNat + 32) else c

/-- Python's `str.lower()` (restricted to its ASCII behaviour, which is all
the notebook exercises). -/
def pyLower (s : String) : String := ⟨s.data.map charLower⟩

/-- `instance_kind` as chosen at the top of `generate_config`
(`deployment_type.lower() == 'cpu'`). -/
def instance_kind (deployment_type : String) : String :=
  if pyLower deployment_type = "cpu" then "KIND_CPU" else "KIND_GPU"

def cfgT1 : List Char := "backend: \"fil\"\nmax_batch_size: ".toList

def cfgT2 : List Char := "\ninput [                                 \n \x7b  \n    name: \"input__0\"\n    data_type: TYPE_FP32\n    dims: [ ".toList

def cfgT3 : List Char := " ]                    \n  \x7d \n]\noutput [\n \x7b\n    name: \"output__0\"\n    data_type: TYPE_FP32\n    dims: [ ".toList

def cfgT4 : List Char := " ]\n  \x7d\n]\ninstance_group [\x7b kind: ".toList

def cfgT5 : List Char := " \x7d]\nparameters [\n  \x7b\n    key: \"model_type\"\n    value: \x7b string_value: \"xgboost_json\" \x7d\n  \x7d,\n  \x7b\n    key: \"predict_proba\"\n    value: \x7b string_value: \"true\" \x7d\n  \x7d,\n  \x7b\n    key: \"output_class\"\n    value: \x7b string_value: \"true\" \x7d\n  \x7d,\n  \x7b\n    key: \"threshold\"\n    value: \x7b string_value: \"0.5\" \x7d\n  \x7d,\n  \x7b\n    key: \"storage_type\"\n    value: \x7b string_value: \"".toList

def cfgT6 : List Char := "\" \x7d\n  \x7d\n]\n\ndynamic_batching \x7b\n  max_queue_delay_microseconds: 100\n\x7d".toList

/-- The `config_text` value of `generate_config`, for ambient `features` and
`num_classes` and the `deployment_type`/`storage_type` arguments. -/
def configText (features num_classes : Nat) (deployment_type storage_type : String) :
    List Char :=
  cfgT1 ++ natStr (max_batch_size features num_classes) ++
  cfgT2 ++ natStr features ++
  cfgT3 ++ natStr num_classes ++
  cfgT4 ++ (instance_kind deployment_type).toList ++
  cfgT5 ++ storage_type.toList ++
  cfgT6

/-- Embedding of `generate_config`: the write it performs and the path it
returns. -/
def generate_config (features num_classes : Nat) (model_dir : String)
    (deployment_type storage_type : String) : List FsOp × String :=
  let config_path := pathJoin model_dir "config.pbtxt"
  ([FsOp.write config_path (configText features num_classes deployment_type storage_type)],
    config_path)

/- ############################################################
   C6.  NaN imputation (cell de552313)

   ```python
   nan_columns = data.columns[data.isna().any().to_pandas()]
   float_nan_subset = data[nan_columns].select_dtypes(include='float64')
   imputer = SimpleImputer(missing_values=cp.nan, strategy='median')
   data[float_nan_subset.columns] = imputer.fit_transform(float_nan_subset)
   obj_nan_subset = data[nan_columns].select_dtypes(include='object')
   data[obj_nan_subset.columns] = obj_nan_subset.fillna('UNKNOWN')
   ```

   A loaded cuDF table is a list of columns; each column has a dtype and
   cells, a cell being either a value or missing (`none`).  cuDF permits
   missing values in columns of any dtype, so dtypes other than `float64`
   and `object` are represented by `Dtype.otherDt`.  The two assignments
   touch disjoint column sets (dtype selections are disjoint), so the step
   acts columnwise.  Cell values are idealized as rationals/strings (the
   claims under verification say nothing about floating-point rounding).
   ############################################################ -/

inductive CellVal where
  | num (q : ℚ)
  | str (s : String)
  | intv (z : ℤ)
deriving DecidableEq

inductive Dtype where
  | float64
  | object
  | otherDt
deriving DecidableEq

structure TblCol where
  dtype : Dtype
  cells : List (Option CellVal)
deriving DecidableEq

/-- Does the column contain a missing value (`data.isna().any()`)? -/
def hasMissing (c : TblCol) : Bool := c.cells.any Option.isNone

/-- The non-missing numeric values of a column, in order. -/
def presentNums (c : TblCol) : List ℚ :=
  c.cells.filterMap fun o =>
    match o with
    | some (CellVal.num q) => some q
    | _ => none

/-- Insert into a sorted list (ascending). -/
def insertSorted (q : ℚ) : List ℚ → List ℚ
  | [] => [q]
  | x :: xs => if q ≤ x then q :: x :: xs else x :: insertSorted q xs

def sortRats (l : List ℚ) : List ℚ := l.foldr insertSorted []

/-- Median of a list of rationals (average of the two middle elements for an
even count), the `strategy='median'` statistic of `SimpleImputer`: for a list
with no element at all — an entirely missing column — the imputer has no
statistic (it is NaN and such a column is discarded on transform), so the
median is `none`. -/
def median (l : List ℚ) : Option ℚ :=
  if (sortRats l).length = 0 then none
  else if (sortRats l).length % 2 = 1 then
    some ((sortRats l).getD ((sortRats l).length / 2) 0)
  else
    some (((sortRats l).getD ((sortRats l).length / 2 - 1) 0 +
      (sortRats l).getD ((sortRats l).length / 2) 0) / 2)

/-- The effect of the imputation cell on one column.  A `float64` column whose
values are all missing has no median statistic: `SimpleImputer` drops it from
the transformed array and the write-back
`data[float_nan_subset.columns] = imputer.fit_transform(float_nan_subset)`
fails rather than imputing, modelled by `none`. -/
def imputeCol (c : TblCol) : Option TblCol :=
  if hasMissing c then
    match c.dtype with
    | Dtype.float64 =>
      match median (presentNums c) with
      | some m =>
        some { c with cells := c.cells.map fun o => some (o.getD (CellVal.num m)) }
      | none => none
    | Dtype.object =>
      some { c with cells := c.cells.map fun o => some (o.getD (CellVal.str "UNKNOWN")) }
    | Dtype.otherDt => some c
  else some c

/-- The effect of the imputation cell on the whole table: columnwise, failing
if any column hits the imputer's error path. -/
def imputeTable : List TblCol → Option (List TblCol)
  | [] => some []
  | c :: t =>
    match imputeCol c, imputeTable t with
    | some c', some t' => some (c' :: t')
    | _, _ => none

/- ############################################################
   C7.  Dockerfile final stage (src/unnamed/part_000, lines 172-187)

   ```dockerfile
   FROM ${BASE_IMAGE} as final
   ARG BACKEND_NAME
   ENV BACKEND_NAME=$BACKEND_NAME
   RUN mkdir /models
   RUN if [ -d /opt/tritonserver/backends/${BACKEND_NAME} ]; then
         rm -rf /opt/tritonserver/backends/${BACKEND_NAME}/*; fi
   COPY --from=build-stage /opt/tritonserver/backends/$BACKEND_NAME \
        /opt/tritonserver/backends/$BACKEND_NAME
   ```

   An image filesystem is a map from paths (component lists) to nodes.  The
   stage starts from the pristine `${BASE_IMAGE}` filesystem (not from the
   `base`/`build-prep`/`build-stage`/test stages) and applies the three
   instructions.  `COPY` of a directory merges the source tree into the
   destination, which is why the stage empties the destination first.
   ############################################################ -/

inductive FsNode where
  | file (content : String)
  | dir
deriving DecidableEq

def Image : Type := List String → Option FsNode

/-- Is `pre` a (non-strict) ancestor-or-self path of `p`? -/
def underB : List String → List String → Bool
  | [], _ => true
  | _ :: _, [] => false
  | a :: as, b :: bs => a == b && underB as bs

/-- Is `p` strictly below the directory `pre`? -/
def strictUnderB (pre p : List String) : Bool :=
  underB pre p && pre.length < p.length

/-- The backend directory `/opt/tritonserver/backends/${BACKEND_NAME}`. -/
def backendDir (name : String) : List String :=
  ["opt", "tritonserver", "backends", name]

/-- `RUN mkdir /models`. -/
def mkdirModels (img : Image) : Image :=
  fun p => if p = ["models"] then some FsNode.dir else img p

/-- `RUN if [ -d …/backends/$NAME ]; then rm -rf …/backends/$NAME/*; fi`:
when the backend directory pre-exists, everything strictly below it is
removed; otherwise nothing happens. -/
def cleanBackend (name : String) (img : Image) : Image := fun p =>
  if img (backendDir name) = some FsNode.dir ∧ strictUnderB (backendDir name) p
  then none
  else img p

/-- `COPY --from=build-stage …/backends/$NAME …/backends/$NAME`: the source
tree is merged over the destination. -/
def copyBackend (name : String) (buildImg img : Image) : Image :=
  fun p =>
    if underB (backendDir name) p ∧ (buildImg p).isSome then buildImg p else img p

/-- The filesystem of the `final` stage, given the `${BASE_IMAGE}` filesystem
and the `build-stage` filesystem. -/
def finalStage (name : String) (baseImg buildImg : Image) : Image :=
  copyBackend name buildImg (cleanBackend name (mkdirModels baseImg))

/- ############################################################
   C10.  `convert_to_numpy` (cell c64db65d)

   ```python
   def convert_to_numpy(df):
       df = df.copy()
       cat_cols = df.select_dtypes('category').columns
       for col in cat_cols:
           df[col] = df[col].cat.codes
       for col in df.columns:
           df[col] = pd.to_numeric(df[col], downcast='float')
       return df.values
   ```

   To make mutation observable, dataframes live on a heap (a list of
   dataframe objects) and the argument is a reference (an index).
   `df = df.copy()` allocates a fresh object at the end of the heap; the
   two loops of in-place column assignments then target that fresh object
   only.  Were the `copy` absent, the assignments would rewrite the heap at
   the argument's index instead.
   ############################################################ -/

inductive PdCol where
  | cat (codes : List ℤ)
  | num64 (vals : List ℚ)
  | num32 (vals : List ℚ)
deriving DecidableEq

def PdFrame : Type := List PdCol

/-- `df[col] = df[col].cat.codes` for one column. -/
def catCodesCol : PdCol → PdCol
  | PdCol.cat codes => PdCol.num64 (codes.map fun z => (z : ℚ))
  | c => c

/-- `df[col] = pd.to_numeric(df[col], downcast='float')` for one column
(the float downcast is idealized as value-preserving). -/
def toNumericFloat : PdCol → PdCol
  | PdCol.cat codes => PdCol.num32 (codes.map fun z => (z : ℚ))
  | PdCol.num64 vals => PdCol.num32 vals
  | PdCol.num32 vals => PdCol.num32 vals

/-- The column values of a dataframe (`df.values`). -/
def frameValues (df : PdFrame) : List (List ℚ) :=
  df.map fun c =>
    match c with
    | PdCol.cat codes => codes.map fun z => (z : ℚ)
    | PdCol.num64 vals => vals
    | PdCol.num32 vals => vals

/-- The two in-place loops of `convert_to_numpy`, applied to one object. -/
def convertSteps (df : PdFrame) : PdFrame :=
  (df.map catCodesCol).map toNumericFloat

/-- Embedding of `convert_to_numpy`: given the heap and a reference to the
argument dataframe, returns the new heap and the returned values.  The copy
is allocated at the end of the heap and is the only object written. -/
def convert_to_numpy (heap : List PdFrame) (r : Nat) : List PdFrame × List (List ℚ) :=
  let df := heap.getD r []
  let copy := convertSteps df
  (heap ++ [copy], frameValues copy)


/- Concrete data used by witness theorems. -/

/-- A small table exercising all three dtypes, for the C6 witness. -/
def sampleTable : List TblCol :=
  [TblCol.mk Dtype.float64 [some (CellVal.num 1), some (CellVal.num 3)],
   TblCol.mk Dtype.object [none, some (CellVal.str "a")],
   TblCol.mk Dtype.otherDt [some (CellVal.intv 5)]]

/-- A concrete base-image filesystem for the C7 witness: the backend directory
pre-exists and holds a stale artifact, and a conda install sits elsewhere. -/
def demoBase : Image := fun p =>
  if p = backendDir "fil" then some FsNode.dir
  else if p = backendDir "fil" ++ ["stale.so"] then some (FsNode.file "stale")
  else if p = ["root", "miniconda3"] then some FsNode.dir
  else none

/-- A concrete build-stage filesystem for the C7 witness. -/
def demoBuild : Image := fun p =>
  if p = backendDir "fil" then some FsNode.dir
  else if p = backendDir "fil" ++ ["libtriton_fil.so"] then some (FsNode.file "plugin")
  else none

/-- A concrete dataframe heap for the C10 witness. -/
def demoHeap : List PdFrame :=
  [[PdCol.cat [0, 1, 0], PdCol.num64 [2, 3, 4]], [PdCol.num64 [7]]]

/- Finer subdivisions of the template chunks, used to locate the interpolated
values inside `configText`. -/

def cfgT1a : List Char := "backend: \"fil\"\n".toList

def mbsLbl : List Char := "max_batch_size: ".toList

def dimsLbl : List Char := "dims: [ ".toList

def closeBracket : List Char := " ]".toList

def cfgT2a : List Char := "\ninput [                                 \n \x7b  \n    name: \"input__0\"\n    data_type: TYPE_FP32\n    ".toList

def cfgT3mid : List Char := "                    \n  \x7d \n]\noutput [\n \x7b\n    name: \"output__0\"\n    data_type: TYPE_FP32\n    ".toList

def cfgT4b : List Char := "\n  \x7d\n]\ninstance_group [\x7b kind: ".toList

set_option maxRecDepth 10000

/- ############################################################
   Sanity checks on the embedding
   ############################################################ -/

theorem natStr_renders_decimal_sample : natStr 1023 = "1023".toList := by decide

theorem createBatches_sample :
    createBatches 3 [1, 2, 3, 4, 5, 6, 7, 8, 9, 10] =
      [[1, 2], [3, 4], [5], [6], [7], [8], [9], [10]] := by decide

/- ############################################################
   C1
   ############################################################ -/

/-- C1, counterexample.  On an execution where every readiness probe raises
`InferenceServerException` (the client cannot reach the server at all) and the
elapsed time exceeds the 60-second `TIMEOUT` from the first iteration on, the
loop never exits: the claim that the retry loop terminates on every execution,
exiting once the timeout has elapsed, is false.  The short-circuiting `or`
never reaches the timeout comparison when `is_server_ready()` raises. -/
theorem C1_counterexample :
    ¬ loopTerminates (fun _ => ProbeOutcome.raises) (fun i => 61 + i) := by
  rintro ⟨i, h⟩
  simp [loopExits] at h

/-- C1 (amended).  Iterations where the probe raises are swallowed and never
exit the loop (no exception propagates); an iteration whose probe returns true
exits immediately; an iteration whose probe returns false exits exactly when
more than `TIMEOUT` (60) seconds have elapsed; hence the loop terminates
whenever some iteration's probe returns without raising and either reports
ready or observes the timeout expired — but not necessarily when every probe
call raises. -/
theorem C1_loop_amended (probe : Nat → ProbeOutcome) (elapsed : Nat → Nat) :
    (∀ i, probe i = ProbeOutcome.raises → loopExits probe elapsed i = false)
    ∧ (∀ i, probe i = ProbeOutcome.ready → loopExits probe elapsed i = true)
    ∧ (∀ i, probe i = ProbeOutcome.notReady →
        (loopExits probe elapsed i = true ↔ TIMEOUT < elapsed i))
    ∧ ((∃ i, probe i ≠ ProbeOutcome.raises ∧
          (probe i = ProbeOutcome.ready ∨ TIMEOUT < elapsed i)) →
        loopTerminates probe elapsed) := by
  refine ⟨fun i h => by simp [loopExits, h],
          fun i h => by simp [loopExits, h],
          fun i h => by simp [loopExits, h],
          ?_⟩
  rintro ⟨i, hne, hor⟩
  refine ⟨i, ?_⟩
  cases hp : probe i with
  | ready => simp [loopExits, hp]
  | notReady =>
    rcases hor with hor | hor
    · rw [hp] at hor; cases hor
    · simp [loopExits, hp, hor]
  | raises => exact absurd hp hne

/-- Witness for `C1_loop_amended` at a concrete execution. -/
theorem C1_loop_amended_witness :
    loopTerminates (fun _ => ProbeOutcome.ready) (fun _ => 0) :=
  (C1_loop_amended (fun _ => ProbeOutcome.ready) (fun _ => 0)).2.2.2
    ⟨0, by decide, Or.inl rfl⟩

/- ############################################################
   C2
   ############################################################ -/

/-- C2.  `serialize_model` creates the version directory `<repo>/<name>/1`,
writes the model file `<repo>/<name>/1/xgboost.json`, and returns
`<repo>/<name>`; `generate_config` applied to that returned directory writes
`config.pbtxt` directly inside `<repo>/<name>`, i.e. as a sibling of the
version directory `1`. -/
theorem C2_layout (model : List Char) (repo name : String)
    (features num_classes : Nat) (d sto : String) :
    (serialize_model model repo name).2 = pathJoin repo name
    ∧ (serialize_model model repo name).1 =
        [FsOp.makedirs (pathJoin (pathJoin repo name) "1"),
         FsOp.write (pathJoin (pathJoin (pathJoin repo name) "1") "xgboost.json") model]
    ∧ (generate_config features num_classes (serialize_model model repo name).2 d sto).2 =
        pathJoin (pathJoin repo name) "config.pbtxt"
    ∧ (generate_config features num_classes (serialize_model model repo name).2 d sto).1 =
        [FsOp.write (pathJoin (pathJoin repo name) "config.pbtxt")
          (configText features num_classes d sto)] :=
  ⟨rfl, rfl, rfl, rfl⟩

/- ############################################################
   C5
   ############################################################ -/

/-- C5.  The trainer is invoked exactly twice, through the same `train_model`
function: once with `num_trees = 500`, `max_depth = 3` and once with
`num_trees = 5000`, `max_depth = 12`; both invocations use objective
`binary:logistic` and eval metric `aucpr`, and agree on every constructor
setting other than `n_estimators` and `max_depth`. -/
theorem C5_training_profiles :
    ∃ p q, trainingInvocations = [p, q]
      ∧ p = train_model 500 3 ∧ q = train_model 5000 12
      ∧ p.n_estimators = 500 ∧ p.max_depth = 3
      ∧ q.n_estimators = 5000 ∧ q.max_depth = 12
      ∧ p.objective = "binary:logistic" ∧ p.eval_metric = "aucpr"
      ∧ q.objective = "binary:logistic" ∧ q.eval_metric = "aucpr"
      ∧ p.tree_method = q.tree_method
      ∧ p.enable_categorical = q.enable_categorical
      ∧ p.use_label_encoder = q.use_label_encoder
      ∧ p.predictor = q.predictor := by
  refine ⟨train_model 500 3, train_model 5000 12, rfl, ?_⟩
  decide

/- ############################################################
   C8 / C9
   ############################################################ -/

theorem takeDrops_join (ss : List Nat) (l : List α) :
    (takeDrops ss l).join = l.take ss.sum := by
  induction ss generalizing l with
  | nil => simp [takeDrops]
  | cons s ss ih =>
    simp only [takeDrops, List.join_cons, ih, List.sum_cons, List.take_add]

theorem takeDrops_length (ss : List Nat) (l : List α) :
    (takeDrops ss l).length = ss.length := by
  induction ss generalizing l with
  | nil => rfl
  | cons s ss ih => simp [takeDrops, ih]

theorem splitSizes_sum (n k : Nat) (hk : 0 < k) : (splitSizes n k).sum = n := by
  have hq := Nat.div_add_mod n k
  have hr : n % k < k := Nat.mod_lt _ hk
  have h3 : (k - n % k) * (n / k) = k * (n / k) - n % k * (n / k) :=
    Nat.sub_mul _ _ _
  have h4 : n % k * (n / k) ≤ k * (n / k) :=
    Nat.mul_le_mul_right _ (le_of_lt hr)
  simp only [splitSizes, List.sum_append, List.sum_const_nat]
  calc n % k * (n / k + 1) + (k - n % k) * (n / k)
      = n % k * (n / k) + n % k + (k * (n / k) - n % k * (n / k)) := by
        rw [Nat.mul_add, Nat.mul_one, h3]
    _ = n % k + (n % k * (n / k) + (k * (n / k) - n % k * (n / k))) := by
        omega
    _ = n % k + k * (n / k) := by rw [Nat.add_sub_cancel' h4]
    _ = n := by omega

theorem splitSizes_length (n k : Nat) (hk : 0 < k) :
    (splitSizes n k).length = k := by
  have hr : n % k < k := Nat.mod_lt _ hk
  simp [splitSizes]
  omega

theorem arraySplit_join (l : List α) (k : Nat) (hk : 0 < k) :
    (arraySplit l k).join = l := by
  rw [arraySplit, takeDrops_join, splitSizes_sum _ _ hk, List.take_length]

theorem arraySplit_length (l : List α) (k : Nat) (hk : 0 < k) :
    (arraySplit l k).length = k := by
  rw [arraySplit, takeDrops_length, splitSizes_length _ _ hk]

theorem gpuCount_le_batch_parts (m : Nat) (l : List α) :
    0 < max GPU_COUNT (chunkCount m l.length) :=
  lt_of_lt_of_le (by norm_num [GPU_COUNT]) (le_max_left _ _)

/-- C8.  Concatenating the chunks returned by `create_batches`, in order,
reconstructs the input array row for row, and at least `GPU_COUNT` (8) chunks
are always returned. -/
theorem C8_batches_reconstruct (m : Nat) (l : List α)
    (hm : 1 ≤ m) (hl : 1 ≤ l.length) :
    (createBatches m l).join = l
    ∧ 8 ≤ (createBatches m l).length ∧ GPU_COUNT = 8 := by
  refine ⟨arraySplit_join _ _ (gpuCount_le_batch_parts m l), ?_, rfl⟩
  rw [createBatches, arraySplit_length _ _ (gpuCount_le_batch_parts m l)]
  exact le_max_left _ _

/-- Witness for `C8_batches_reconstruct` at a concrete array and batch
size. -/
theorem C8_batches_reconstruct_witness :
    (createBatches 3 [10, 20, 30, 40]).join = [10, 20, 30, 40]
    ∧ 8 ≤ (createBatches 3 [10, 20, 30, 40]).length ∧ GPU_COUNT = 8 :=
  C8_batches_reconstruct 3 [10, 20, 30, 40] (by decide) (by decide)

theorem mem_takeDrops {c : List α} :
    ∀ (ss : List Nat) (l : List α), c ∈ takeDrops ss l → ∃ s ∈ ss, c.length ≤ s := by
  intro ss
  induction ss with
  | nil => intro l h; cases h
  | cons s ss ih =>
    intro l h
    rcases List.mem_cons.mp h with h | h
    · exact ⟨s, List.mem_cons_self _ _, by simp [h]⟩
    · obtain ⟨t, ht, hle⟩ := ih _ h
      exact ⟨t, List.mem_cons_of_mem _ ht, hle⟩

theorem splitSizes_bound (n k m : Nat) (hk : 0 < k) (hnk : n ≤ k * m) :
    ∀ s ∈ splitSizes n k, s ≤ m := by
  intro s hs
  have hdiv : n / k ≤ m := by
    have h1 : n / k ≤ (k * m) / k := Nat.div_le_div_right hnk
    rwa [Nat.mul_div_cancel_left m hk] at h1
  rw [splitSizes, List.mem_append] at hs
  rcases hs with hs | hs
  · have hmod : n % k ≠ 0 := by
      intro h0
      rw [h0] at hs
      exact absurd hs (by simp)
    rw [List.eq_of_mem_replicate hs]
    rcases Nat.lt_or_ge (n / k) m with h | h
    · omega
    · exfalso
      have hEq : n / k = m := le_antisymm hdiv h
      have h2 : k * m ≤ n := by
        calc k * m = n / k * k := by rw [hEq, Nat.mul_comm]
          _ ≤ n := Nat.div_mul_le_self n k
      have h3 : n = k * m := le_antisymm hnk h2
      exact hmod (by rw [h3, Nat.mul_mod_right])
  · rw [List.eq_of_mem_replicate hs]
    exact hdiv

theorem le_mul_chunkCount (m n : Nat) (hm : 1 ≤ m) (hn : 1 ≤ n) :
    n ≤ chunkCount m n * m := by
  rcases Nat.eq_zero_or_pos (n % m) with h | h
  · have hcond : ¬(n % m ≠ 0 ∨ n < m) := by
      rintro (hc | hc)
      · exact hc h
      · rw [Nat.mod_eq_of_lt hc] at h
        omega
    rw [chunkCount, if_neg hcond, Nat.add_zero]
    exact Nat.le_of_eq (Nat.div_mul_cancel (Nat.dvd_of_mod_eq_zero h)).symm
  · have hcond : n % m ≠ 0 ∨ n < m := Or.inl (Nat.pos_iff_ne_zero.mp h)
    rw [chunkCount, if_pos hcond]
    have h1 := Nat.div_add_mod n m
    have h2 : n % m < m := Nat.mod_lt _ hm
    calc n = m * (n / m) + n % m := h1.symm
      _ ≤ m * (n / m) + m := by omega
      _ = (n / m + 1) * m := by ring

/-- C9.  Every chunk returned by `create_batches` has at most
`max_batch_size` rows: the computed chunk count is large enough that
`np.array_split` over `max(GPU_COUNT, chunks)` parts never yields a part
longer than `max_batch_size`. -/
theorem C9_batch_size_bound (m : Nat) (l : List α)
    (hm : 1 ≤ m) (hl : 1 ≤ l.length) :
    ∀ c ∈ createBatches m l, c.length ≤ m := by
  intro c hc
  rw [createBatches, arraySplit] at hc
  obtain ⟨s, hs, hcs⟩ := mem_takeDrops _ _ hc
  have hnk : l.length ≤ max GPU_COUNT (chunkCount m l.length) * m :=
    le_trans (le_mul_chunkCount m l.length hm hl)
      (Nat.mul_le_mul_right m (le_max_right _ _))
  exact le_trans hcs
    (splitSizes_bound l.length _ m (gpuCount_le_batch_parts m l) hnk s hs)

/-- Witness for `C9_batch_size_bound` at a concrete array and batch size. -/
theorem C9_batch_size_bound_witness :
    ((createBatches 3 [10, 20, 30, 40]).getD 0 []).length ≤ 3 :=
  C9_batch_size_bound 3 [10, 20, 30, 40] (by decide) (by decide) _ (by decide)

/- ############################################################
   C3
   ############################################################ -/

theorem cfgT1_split : cfgT1 = cfgT1a ++ mbsLbl := by decide

theorem cfgT2_split : cfgT2 = cfgT2a ++ dimsLbl := by decide

theorem cfgT3_split : cfgT3 = closeBracket ++ cfgT3mid ++ dimsLbl := by decide

theorem cfgT4_split : cfgT4 = closeBracket ++ cfgT4b := by decide

/-- Every character produced by the decimal renderer is one of the ten digit
characters; in particular it is never an uppercase letter. -/
theorem noK_digit : ∀ k, k < 10 → ('K' : Char) ≠ Char.ofNat (48 + k) := by decide

theorem noK_natStrGo : ∀ (fuel n : Nat), ('K' : Char) ∉ natStrGo fuel n := by
  intro fuel
  induction fuel with
  | zero => intro n h; simp [natStrGo] at h
  | succ fuel ih =>
    intro n h
    simp only [natStrGo] at h
    split at h
    · simp only [List.mem_singleton] at h
      exact noK_digit n (by assumption) h
    · rcases List.mem_append.mp h with h | h
      · exact ih _ h
      · simp only [List.mem_singleton] at h
        exact noK_digit (n % 10) (Nat.mod_lt _ (by norm_num)) h

theorem noK_natStr (n : Nat) : ('K' : Char) ∉ natStr n := noK_natStrGo _ _

/-- A character of an occurring segment occurs in the surrounding list. -/
theorem seg_mem {p l : List Char} (h : p <:+: l) {c : Char} (hc : c ∈ p) :
    c ∈ l := by
  obtain ⟨s, t, rfl⟩ := h
  simp [List.mem_append, hc]

/-- Transitivity of segment containment. -/
theorem seg_trans {p m l : List Char} (h1 : p <:+: m) (h2 : m <:+: l) :
    p <:+: l := by
  obtain ⟨a, b, rfl⟩ := h1
  obtain ⟨c, d, rfl⟩ := h2
  exact ⟨c ++ a, b ++ d, by simp [List.append_assoc]⟩

/-- Core alignment argument: a text of the shape `A ++ "KIND_GPU" ++ R` where
neither `A` nor `R` contains the letter `K` cannot contain `"KIND_CPU"`: the
`K` of any occurrence would have to be the `K` of `"KIND_GPU"`, and the
strings differ at their sixth character. -/
theorem kcpu_ne_gpu_text (R : List Char) (hR : ('K' : Char) ∉ R) :
    ∀ (A : List Char), ('K' : Char) ∉ A →
      ∀ u v : List Char,
        u ++ ("KIND_CPU".toList ++ v) ≠ A ++ ("KIND_GPU".toList ++ R) := by
  intro A
  induction A with
  | nil =>
    intro _ u v h
    rw [List.nil_append] at h
    cases u with
    | nil =>
      rw [List.nil_append] at h
      have hlen : ("KIND_CPU".toList).length = ("KIND_GPU".toList).length := by decide
      have heq := (List.append_inj h hlen).1
      exact absurd heq (by decide)
    | cons c u =>
      rw [show "KIND_GPU".toList = 'K' :: "IND_GPU".toList from by decide,
        List.cons_append] at h
      rw [List.cons_append] at h
      injection h with hc ht
      have hm : ('K' : Char) ∈ u ++ ("KIND_CPU".toList ++ v) :=
        List.mem_append.mpr (Or.inr (List.mem_append.mpr (Or.inl (by decide))))
      rw [ht] at hm
      rcases List.mem_append.mp hm with hm | hm
      · exact absurd hm (by decide)
      · exact hR hm
  | cons a A ih =>
    intro hA u v h
    have hA' : ('K' : Char) ∉ A := fun hx => hA (List.mem_cons_of_mem _ hx)
    rw [List.cons_append] at h
    cases u with
    | nil =>
      rw [List.nil_append] at h
      rw [show "KIND_CPU".toList = 'K' :: "IND_CPU".toList from by decide,
        List.cons_append] at h
      injection h with hc _
      exact hA (by rw [hc]; exact List.mem_cons_self a A)
    | cons c u =>
      rw [List.cons_append] at h
      injection h with _ ht
      exact ih hA' u v ht

theorem no_kcpu_in (A R : List Char) (hA : ('K' : Char) ∉ A)
    (hR : ('K' : Char) ∉ R) :
    ¬ "KIND_CPU".toList <:+: A ++ ("KIND_GPU".toList ++ R) := by
  rintro ⟨s, t, h⟩
  rw [List.append_assoc] at h
  exact kcpu_ne_gpu_text R hR A hA s t h

/-- With a `K`-free `storage_type` and a non-`cpu` `deployment_type`, the
generated text does not contain `KIND_CPU`. -/
theorem config_no_kcpu (features num_classes : Nat) (d sto : String)
    (hsto : ('K' : Char) ∉ sto.toList) (hd : pyLower d ≠ "cpu") :
    ¬ "KIND_CPU".toList <:+: configText features num_classes d sto := by
  have hk : (instance_kind d).toList = "KIND_GPU".toList := by
    rw [instance_kind, if_neg hd]
  have hshape : configText features num_classes d sto =
      (cfgT1 ++ natStr (max_batch_size features num_classes) ++ cfgT2 ++
        natStr features ++ cfgT3 ++ natStr num_classes ++ cfgT4) ++
      ("KIND_GPU".toList ++ (cfgT5 ++ sto.toList ++ cfgT6)) := by
    rw [configText, hk]
    simp [List.append_assoc]
  rw [hshape]
  apply no_kcpu_in
  · intro hmem
    simp only [List.mem_append] at hmem
    rcases hmem with ((((((h | h) | h) | h) | h) | h) | h)
    exacts [absurd h (by decide), noK_natStr _ h, absurd h (by decide),
      noK_natStr _ h, absurd h (by decide), noK_natStr _ h, absurd h (by decide)]
  · intro hmem
    simp only [List.mem_append] at hmem
    rcases hmem with (h | h) | h
    exacts [absurd h (by decide), hsto h, absurd h (by decide)]

/-- With a `cpu` `deployment_type`, the generated text contains `KIND_CPU`. -/
theorem config_kcpu_pos (features num_classes : Nat) (d sto : String)
    (hd : pyLower d = "cpu") :
    "KIND_CPU".toList <:+: configText features num_classes d sto := by
  have hk : (instance_kind d).toList = "KIND_CPU".toList := by
    rw [instance_kind, if_pos hd]
  refine ⟨cfgT1 ++ natStr (max_batch_size features num_classes) ++ cfgT2 ++
    natStr features ++ cfgT3 ++ natStr num_classes ++ cfgT4,
    cfgT5 ++ sto.toList ++ cfgT6, ?_⟩
  rw [configText, hk]
  simp [List.append_assoc]

/-- With a non-`cpu` `deployment_type`, the generated text contains
`KIND_GPU`. -/
theorem config_kgpu_pos (features num_classes : Nat) (d sto : String)
    (hd : pyLower d ≠ "cpu") :
    "KIND_GPU".toList <:+: configText features num_classes d sto := by
  have hk : (instance_kind d).toList = "KIND_GPU".toList := by
    rw [instance_kind, if_neg hd]
  refine ⟨cfgT1 ++ natStr (max_batch_size features num_classes) ++ cfgT2 ++
    natStr features ++ cfgT3 ++ natStr num_classes ++ cfgT4,
    cfgT5 ++ sto.toList ++ cfgT6, ?_⟩
  rw [configText, hk]
  simp [List.append_assoc]

theorem cfgT2_in_text (features num_classes : Nat) (d sto : String) :
    cfgT2 <:+: configText features num_classes d sto := by
  refine ⟨cfgT1 ++ natStr (max_batch_size features num_classes),
    natStr features ++ cfgT3 ++ natStr num_classes ++ cfgT4 ++
      (instance_kind d).toList ++ cfgT5 ++ sto.toList ++ cfgT6, ?_⟩
  rw [configText]
  simp [List.append_assoc]

theorem cfgT3_in_text (features num_classes : Nat) (d sto : String) :
    cfgT3 <:+: configText features num_classes d sto := by
  refine ⟨cfgT1 ++ natStr (max_batch_size features num_classes) ++ cfgT2 ++
    natStr features,
    natStr num_classes ++ cfgT4 ++ (instance_kind d).toList ++ cfgT5 ++
      sto.toList ++ cfgT6, ?_⟩
  rw [configText]
  simp [List.append_assoc]

theorem cfgT5_in_text (features num_classes : Nat) (d sto : String) :
    cfgT5 <:+: configText features num_classes d sto := by
  refine ⟨cfgT1 ++ natStr (max_batch_size features num_classes) ++ cfgT2 ++
    natStr features ++ cfgT3 ++ natStr num_classes ++ cfgT4 ++
      (instance_kind d).toList,
    sto.toList ++ cfgT6, ?_⟩
  rw [configText]
  simp [List.append_assoc]

theorem cfgT6_in_text (features num_classes : Nat) (d sto : String) :
    cfgT6 <:+: configText features num_classes d sto := by
  refine ⟨cfgT1 ++ natStr (max_batch_size features num_classes) ++ cfgT2 ++
    natStr features ++ cfgT3 ++ natStr num_classes ++ cfgT4 ++
      (instance_kind d).toList ++ cfgT5 ++ sto.toList,
    [], ?_⟩
  rw [configText]
  simp [List.append_assoc]

theorem dims_features_in_text (features num_classes : Nat) (d sto : String) :
    ("dims: [ ".toList ++ natStr features ++ " ]".toList) <:+:
      configText features num_classes d sto := by
  refine ⟨cfgT1 ++ natStr (max_batch_size features num_classes) ++ cfgT2a,
    cfgT3mid ++ dimsLbl ++ natStr num_classes ++ closeBracket ++ cfgT4b ++
      (instance_kind d).toList ++ cfgT5 ++ sto.toList ++ cfgT6, ?_⟩
  rw [configText, cfgT2_split, cfgT3_split, cfgT4_split]
  simp [List.append_assoc, dimsLbl, closeBracket]

theorem dims_classes_in_text (features num_classes : Nat) (d sto : String) :
    ("dims: [ ".toList ++ natStr num_classes ++ " ]".toList) <:+:
      configText features num_classes d sto := by
  refine ⟨cfgT1 ++ natStr (max_batch_size features num_classes) ++ cfgT2a ++
    dimsLbl ++ natStr features ++ closeBracket ++ cfgT3mid,
    cfgT4b ++ (instance_kind d).toList ++ cfgT5 ++ sto.toList ++ cfgT6, ?_⟩
  rw [configText, cfgT2_split, cfgT3_split, cfgT4_split]
  simp [List.append_assoc, dimsLbl, closeBracket]

theorem mbs_in_text (features num_classes : Nat) (d sto : String) :
    ("max_batch_size: ".toList ++
      natStr (MAX_MEMORY_BYTES / ((features + num_classes) * 4))) <:+:
      configText features num_classes d sto := by
  refine ⟨cfgT1a,
    cfgT2 ++ natStr features ++ cfgT3 ++ natStr num_classes ++ cfgT4 ++
      (instance_kind d).toList ++ cfgT5 ++ sto.toList ++ cfgT6, ?_⟩
  rw [configText, cfgT1_split]
  simp [List.append_assoc, mbsLbl, max_batch_size, bytes_per_sample]

/-- C3, counterexample.  The claim quantifies over every `storage_type`
string, but `storage_type` is interpolated verbatim into the text: with
`deployment_type = "gpu"` and `storage_type = "KIND_CPU"` the produced
`config.pbtxt` text contains `KIND_CPU` although the deployment type is not
case-insensitively equal to `cpu`, so the claimed equivalence is false. -/
theorem C3_counterexample :
    ("KIND_CPU".toList <:+: configText 4 2 "gpu" "KIND_CPU")
    ∧ pyLower "gpu" ≠ "cpu" := by
  refine ⟨⟨cfgT1 ++ natStr (max_batch_size 4 2) ++ cfgT2 ++ natStr 4 ++ cfgT3 ++
      natStr 2 ++ cfgT4 ++ "KIND_GPU".toList ++ cfgT5, cfgT6, ?_⟩, by decide⟩
  have h : instance_kind "gpu" = "KIND_GPU" := by decide
  rw [configText, h]

/-- C3 (amended).  Provided `storage_type` does not itself contain the letter
`K` (true of every documented value `AUTO`, `SPARSE`, `DENSE`; an adversarial
value such as `"KIND_CPU"` is interpolated verbatim and breaks the
equivalence), the text produced by `generate_config` contains `KIND_CPU` iff
`deployment_type` lowercases to `cpu`, any other deployment type yielding
`KIND_GPU`; and the text always contains the input tensor `input__0` of type
`TYPE_FP32` with dims `[features]`, the output tensor `output__0` with dims
`[num_classes]`, the `model_type` parameter `xgboost_json`, a
`dynamic_batching` block with `max_queue_delay_microseconds: 100`, and
`max_batch_size` equal to `MAX_MEMORY_BYTES // ((features + num_classes) * 4)`. -/
theorem C3_config_amended (features num_classes : Nat)
    (deployment_type storage_type : String)
    (hsto : ('K' : Char) ∉ storage_type.toList) :
    (("KIND_CPU".toList <:+:
        configText features num_classes deployment_type storage_type) ↔
      pyLower deployment_type = "cpu")
    ∧ (pyLower deployment_type ≠ "cpu" →
        "KIND_GPU".toList <:+:
          configText features num_classes deployment_type storage_type)
    ∧ "input__0".toList <:+:
        configText features num_classes deployment_type storage_type
    ∧ "TYPE_FP32".toList <:+:
        configText features num_classes deployment_type storage_type
    ∧ ("dims: [ ".toList ++ natStr features ++ " ]".toList) <:+:
        configText features num_classes deployment_type storage_type
    ∧ "output__0".toList <:+:
        configText features num_classes deployment_type storage_type
    ∧ ("dims: [ ".toList ++ natStr num_classes ++ " ]".toList) <:+:
        configText features num_classes deployment_type storage_type
    ∧ ("key: \"model_type\"\n    value: \x7b string_value: \"xgboost_json\" \x7d".toList) <:+:
        configText features num_classes deployment_type storage_type
    ∧ ("dynamic_batching \x7b\n  max_queue_delay_microseconds: 100\n\x7d".toList) <:+:
        configText features num_classes deployment_type storage_type
    ∧ ("max_batch_size: ".toList ++
        natStr (MAX_MEMORY_BYTES / ((features + num_classes) * 4))) <:+:
        configText features num_classes deployment_type storage_type := by
  refine ⟨⟨fun h => ?_, config_kcpu_pos _ _ _ _⟩,
    config_kgpu_pos _ _ _ _,
    seg_trans (by decide) (cfgT2_in_text _ _ _ _),
    seg_trans (by decide) (cfgT2_in_text _ _ _ _),
    dims_features_in_text _ _ _ _,
    seg_trans (by decide) (cfgT3_in_text _ _ _ _),
    dims_classes_in_text _ _ _ _,
    seg_trans (by decide) (cfgT5_in_text _ _ _ _),
    seg_trans (by decide) (cfgT6_in_text _ _ _ _),
    mbs_in_text _ _ _ _⟩
  by_contra hd
  exact config_no_kcpu _ _ _ _ hsto hd h

/-- Witness for `C3_config_amended` at concrete inputs. -/
theorem C3_config_amended_witness :
    ("KIND_CPU".toList <:+: configText 4 2 "cpu" "AUTO")
    ∧ pyLower "cpu" = "cpu" :=
  ⟨((C3_config_amended 4 2 "cpu" "AUTO" (by decide)).1).mpr (by decide),
    by decide⟩

/- ############################################################
   C6
   ############################################################ -/

theorem insertSorted_length (q : ℚ) (l : List ℚ) :
    (insertSorted q l).length = l.length + 1 := by
  induction l with
  | nil => rfl
  | cons x xs ih =>
    rw [insertSorted]
    split
    · rfl
    · simp [ih]

theorem sortRats_length (l : List ℚ) : (sortRats l).length = l.length := by
  induction l with
  | nil => rfl
  | cons x xs ih =>
    show (insertSorted x (sortRats xs)).length = xs.length + 1
    rw [insertSorted_length, ih]

/-- A column with at least one present numeric value has a median statistic. -/
theorem median_of_ne_empty (l : List ℚ) (h : l ≠ []) : ∃ m, median l = some m := by
  have hn : (sortRats l).length ≠ 0 := by
    rw [sortRats_length]
    exact fun h0 => h (List.length_eq_zero.mp h0)
  rw [median, if_neg hn]
  split
  · exact ⟨_, rfl⟩
  · exact ⟨_, rfl⟩

/-- A column whose missing values are confined to the imputable dtypes, and
which is not an all-missing `float64` column, is imputed successfully and
completely. -/
theorem imputeCol_all_some (c : TblCol)
    (h : hasMissing c = true → c.dtype = Dtype.float64 ∨ c.dtype = Dtype.object)
    (h2 : hasMissing c = true → c.dtype = Dtype.float64 → presentNums c ≠ []) :
    ∃ c', imputeCol c = some c' ∧ ∀ o ∈ c'.cells, o.isSome = true := by
  obtain ⟨dt, cells⟩ := c
  by_cases hm : hasMissing ⟨dt, cells⟩ = true
  · cases dt with
    | float64 =>
      obtain ⟨m, hmed⟩ := median_of_ne_empty _ (h2 hm rfl)
      refine ⟨TblCol.mk Dtype.float64
        (cells.map fun o => some (o.getD (CellVal.num m))), ?_, ?_⟩
      · simp only [imputeCol, hm, if_true, hmed]
      · intro o ho
        obtain ⟨o', _, rfl⟩ := List.mem_map.mp ho
        rfl
    | object =>
      refine ⟨TblCol.mk Dtype.object
        (cells.map fun o => some (o.getD (CellVal.str "UNKNOWN"))), ?_, ?_⟩
      · simp only [imputeCol, hm, if_true]
      · intro o ho
        obtain ⟨o', _, rfl⟩ := List.mem_map.mp ho
        rfl
    | otherDt => rcases h hm with hd | hd <;> cases hd
  · refine ⟨⟨dt, cells⟩, by rw [imputeCol, if_neg hm], ?_⟩
    intro o ho
    have hnone : ¬ ∃ x ∈ cells, x.isNone = true := by
      simpa [hasMissing, List.any_eq_true] using hm
    cases o with
    | none => exact absurd ⟨none, ho, rfl⟩ hnone
    | some v => rfl

theorem imputeTable_all_some : ∀ (t : List TblCol),
    (∀ c ∈ t, hasMissing c = true →
      c.dtype = Dtype.float64 ∨ c.dtype = Dtype.object) →
    (∀ c ∈ t, hasMissing c = true → c.dtype = Dtype.float64 →
      presentNums c ≠ []) →
    ∃ t', imputeTable t = some t' ∧ ∀ c ∈ t', ∀ o ∈ c.cells, o.isSome = true := by
  intro t
  induction t with
  | nil => exact fun _ _ => ⟨[], rfl, by simp⟩
  | cons c t ih =>
    intro h h2
    obtain ⟨c', hc', hcells⟩ := imputeCol_all_some c
      (h c (List.mem_cons_self c t)) (h2 c (List.mem_cons_self c t))
    obtain ⟨t', ht', hall⟩ := ih
      (fun x hx => h x (List.mem_cons_of_mem c hx))
      (fun x hx => h2 x (List.mem_cons_of_mem c hx))
    refine ⟨c' :: t', ?_, ?_⟩
    · simp only [imputeTable]
      rw [hc', ht']
    · intro x hx o ho
      rcases List.mem_cons.mp hx with rfl | hx
      · exact hcells o ho
      · exact hall x hx o ho

/-- C6, counterexample.  cuDF tables admit missing values in columns of any
dtype; on a loaded table holding a single missing-valued column whose dtype is
neither `float64` nor `object` (e.g. an `int64` column with a null), the
imputation cell completes without touching the column, so the missing value
survives: the claim that after the step no column contains a missing value is
false. -/
theorem C6_counterexample :
    imputeTable [TblCol.mk Dtype.otherDt [none]] =
      some [TblCol.mk Dtype.otherDt [none]]
    ∧ none ∈ (TblCol.mk Dtype.otherDt [none] : TblCol).cells := by decide

/-- C6 (amended).  The imputation cell replaces every missing entry of a
`float64` column by that column's median, every missing entry of an `object`
column by the string `UNKNOWN`, and leaves columns without missing values
(and columns of any other dtype) unchanged; an entirely missing `float64`
column hits the imputer's error path (no median statistic; `SimpleImputer`
drops the column and the write-back fails) rather than being imputed.
Consequently, provided every column containing a missing value has dtype
`float64` or `object` and every `float64` column with a missing value also
has at least one present numeric value, the step succeeds and no column
contains a missing value afterwards. -/
theorem C6_impute_amended (t : List TblCol)
    (h : ∀ c ∈ t, hasMissing c = true →
      c.dtype = Dtype.float64 ∨ c.dtype = Dtype.object)
    (h2 : ∀ c ∈ t, hasMissing c = true → c.dtype = Dtype.float64 →
      presentNums c ≠ []) :
    (∃ t', imputeTable t = some t' ∧ ∀ c ∈ t', ∀ o ∈ c.cells, o.isSome = true)
    ∧ (∀ c : TblCol, hasMissing c = false → imputeCol c = some c)
    ∧ (∀ (c : TblCol) (m : ℚ), c.dtype = Dtype.float64 → hasMissing c = true →
        median (presentNums c) = some m →
        imputeCol c =
          some { c with cells := c.cells.map fun o => some (o.getD (CellVal.num m)) })
    ∧ (∀ c : TblCol, c.dtype = Dtype.object → hasMissing c = true →
        imputeCol c =
          some { c with
            cells := c.cells.map fun o => some (o.getD (CellVal.str "UNKNOWN")) })
    ∧ (∀ c : TblCol, c.dtype = Dtype.float64 → hasMissing c = true →
        presentNums c = [] → imputeCol c = none) := by
  refine ⟨imputeTable_all_some t h h2, ?_, ?_, ?_, ?_⟩
  · intro c hmf
    rw [imputeCol, if_neg (by simp [hmf])]
  · intro c m hd hm hmed
    obtain ⟨dt, cells⟩ := c
    dsimp only at hd
    subst hd
    simp only [imputeCol, hm, if_true, hmed]
  · intro c hd hm
    obtain ⟨dt, cells⟩ := c
    dsimp only at hd
    subst hd
    simp only [imputeCol, hm, if_true]
  · intro c hd hm hpe
    obtain ⟨dt, cells⟩ := c
    dsimp only at hd
    subst hd
    have hmed : median (presentNums ⟨Dtype.float64, cells⟩) = none := by
      rw [hpe]
      rfl
    simp only [imputeCol, hm, if_true, hmed]

/-- Witness for `C6_impute_amended` at a concrete table. -/
theorem C6_impute_amended_witness :
    ∃ t', imputeTable sampleTable = some t'
      ∧ ∀ c ∈ t', ∀ o ∈ c.cells, o.isSome = true :=
  (C6_impute_amended sampleTable (by decide) (by decide)).1

/- ############################################################
   C7
   ############################################################ -/

theorem underB_of_strict {pre p : List String} (h : strictUnderB pre p = true) :
    underB pre p = true := by
  rw [strictUnderB, Bool.and_eq_true] at h
  exact h.1

theorem backend_not_under_models (name : String) :
    underB (backendDir name) ["models"] = false := by
  simp [backendDir, underB]

theorem strict_not_models (name : String) :
    strictUnderB (backendDir name) ["models"] = false := by
  rw [strictUnderB, backend_not_under_models]
  rfl

theorem backendDir_ne_models (name : String) : backendDir name ≠ ["models"] := by
  simp [backendDir]

/-- C7.  The `final` stage is computed from the pristine `${BASE_IMAGE}`
filesystem (not from any build or test stage) and differs from it only at
`/models` (created as a directory) and below
`/opt/tritonserver/backends/${BACKEND_NAME}` (whose contents end up exactly
equal to the build stage's): every other path—in particular any conda
environment, source tree, build tool or test file installed by the other
stages—retains its base-image content.  The well-formedness hypothesis says
the base image is a real filesystem: either the backend directory exists as a
directory or nothing lies strictly below it. -/
theorem C7_final_stage_frame (name : String) (baseImg buildImg : Image)
    (hwf : baseImg (backendDir name) = some FsNode.dir ∨
      ∀ q, strictUnderB (backendDir name) q = true → baseImg q = none) :
    finalStage name baseImg buildImg ["models"] = some FsNode.dir
    ∧ (∀ p, underB (backendDir name) p = false → p ≠ ["models"] →
        finalStage name baseImg buildImg p = baseImg p)
    ∧ (∀ p, strictUnderB (backendDir name) p = true →
        finalStage name baseImg buildImg p = buildImg p) := by
  refine ⟨?_, ?_, ?_⟩
  · rw [finalStage, copyBackend]
    rw [if_neg (fun hc => by
      rw [backend_not_under_models] at hc
      exact Bool.false_ne_true hc.1)]
    rw [cleanBackend]
    rw [if_neg (fun hc => by
      rw [strict_not_models] at hc
      exact Bool.false_ne_true hc.2)]
    rw [mkdirModels, if_pos rfl]
  · intro p hu hp
    have hs : strictUnderB (backendDir name) p = false := by
      rw [strictUnderB, hu]
      rfl
    rw [finalStage, copyBackend]
    rw [if_neg (fun hc => by
      rw [hu] at hc
      exact Bool.false_ne_true hc.1)]
    rw [cleanBackend]
    rw [if_neg (fun hc => by
      rw [hs] at hc
      exact Bool.false_ne_true hc.2)]
    rw [mkdirModels, if_neg hp]
  · intro p hsp
    have hup : underB (backendDir name) p = true := underB_of_strict hsp
    have hpm : p ≠ ["models"] := by
      intro he
      rw [he, strict_not_models] at hsp
      exact Bool.false_ne_true hsp
    rw [finalStage, copyBackend]
    by_cases hb : (buildImg p).isSome
    · rw [if_pos ⟨hup, hb⟩]
    · rw [if_neg (fun hc => hb hc.2)]
      have hbn : buildImg p = none := by
        cases hcase : buildImg p with
        | none => rfl
        | some v => rw [hcase] at hb; simp at hb
      have hmk : mkdirModels baseImg (backendDir name) = baseImg (backendDir name) := by
        rw [mkdirModels, if_neg (backendDir_ne_models name)]
      have hmkp : mkdirModels baseImg p = baseImg p := by
        rw [mkdirModels, if_neg hpm]
      rw [hbn, cleanBackend, hmk, hmkp]
      by_cases hdir : baseImg (backendDir name) = some FsNode.dir
      · rw [if_pos ⟨hdir, hsp⟩]
      · rw [if_neg (fun hc => hdir hc.1)]
        rcases hwf with hd | hnone
        · exact absurd hd hdir
        · exact hnone p hsp

/-- Witness for `C7_final_stage_frame` at concrete images: the compiled
plugin comes from the build stage, the stale artifact is gone, the conda
directory is untouched, and `/models` exists. -/
theorem C7_final_stage_frame_witness :
    finalStage "fil" demoBase demoBuild ["models"] = some FsNode.dir
    ∧ finalStage "fil" demoBase demoBuild ["root", "miniconda3"] =
        demoBase ["root", "miniconda3"]
    ∧ finalStage "fil" demoBase demoBuild (backendDir "fil" ++ ["libtriton_fil.so"]) =
        demoBuild (backendDir "fil" ++ ["libtriton_fil.so"])
    ∧ finalStage "fil" demoBase demoBuild (backendDir "fil" ++ ["stale.so"]) =
        demoBuild (backendDir "fil" ++ ["stale.so"]) := by
  have h := C7_final_stage_frame "fil" demoBase demoBuild
    (Or.inl (by rw [demoBase, if_pos rfl]))
  exact ⟨h.1, h.2.1 ["root", "miniconda3"] (by decide) (by decide),
    h.2.2 (backendDir "fil" ++ ["libtriton_fil.so"]) (by decide),
    h.2.2 (backendDir "fil" ++ ["stale.so"]) (by decide)⟩

/- ############################################################
   C10
   ############################################################ -/

theorem getD_append_left (l l' : List α) (i : Nat) (d : α) (h : i < l.length) :
    (l ++ l').getD i d = l.getD i d := by
  induction l generalizing i with
  | nil => simp at h
  | cons a l ih =>
    cases i with
    | zero => rfl
    | succ i =>
      rw [List.cons_append, List.getD_cons_succ, List.getD_cons_succ]
      exact ih i (Nat.lt_of_succ_lt_succ h)

/-- C10.  `convert_to_numpy` never mutates its argument: every dataframe
object that existed on the heap before the call — in particular the argument
at reference `r` — is unchanged afterwards; the category-code conversion and
the numeric downcast are applied only to the freshly allocated copy, whose
values are returned. -/
theorem C10_convert_no_mutation (heap : List PdFrame) (r i : Nat)
    (hi : i < heap.length) :
    ((convert_to_numpy heap r).1).getD i [] = heap.getD i []
    ∧ (convert_to_numpy heap r).1.length = heap.length + 1
    ∧ (convert_to_numpy heap r).2 = frameValues (convertSteps (heap.getD r [])) := by
  refine ⟨getD_append_left _ _ _ _ hi, by simp [convert_to_numpy], rfl⟩

/-- Witness for `C10_convert_no_mutation` at a concrete heap. -/
theorem C10_convert_no_mutation_witness :
    ((convert_to_numpy demoHeap 0).1).getD 0 [] = demoHeap.getD 0 []
    ∧ (convert_to_numpy demoHeap 0).1.length = demoHeap.length + 1
    ∧ (convert_to_numpy demoHeap 0).2 =
        frameValues (convertSteps (demoHeap.getD 0 [])) :=
  C10_convert_no_mutation demoHeap 0 0 (by decide)
